import Mathlib

/-!
Verification development for the Rama chat backend (realtime group messaging).

The Lean definitions below are a shallow embedding of the JavaScript source:

* `src/controllers/messageController.js` — `sendMessage`, `getMessages`,
  `editMessage`, `deleteMessage`, `cleanupDeletedMessages`;
* `src/sockets/chatSocket.js` — the `message:send` handler and the
  connect/disconnect presence transitions;
* `src/services/notificationService.js` — `sendNotification`,
  `getNotifications`.

Timestamps are milliseconds as `Int` (JavaScript `Date.now()` values).  Each
separate `new Date()` call in the source is modelled by its own time
parameter, because distinct calls can observe distinct wall-clock values.
Database identifiers are `Nat`.  The Mongo message store is a `List Message`;
`updateMany` is a `List.map` guarded by the update filter, `deleteMany` is a
`List.filter`, `findById` is `List.find?`.  Fallible collaborators (the Redis
cache, the background sweep) take explicit failure flags standing for a thrown
exception at that call site.
-/

namespace RamaChat

abbrev UserId := Nat
abbrev GroupId := Nat
abbrev MessageId := Nat

/-- User roles, from the `role` enum used by the controllers. -/
inductive Role
  | member
  | manager
  | admin
deriving DecidableEq, Repr

/-- JS truthiness of an optional string: `undefined` / `null` and `""` are falsy. -/
def jsTruthyStr : Option String → Bool
  | none => false
  | some t => t != ""

/-- The `edited` sub-record of a message. -/
structure EditedInfo where
  isEdited : Bool := false
  editedAt : Option Int := none
deriving DecidableEq, Repr

/-- The `deleted` sub-record of a message (tombstone). -/
structure DeletedInfo where
  isDeleted : Bool := false
  deletedBy : Option UserId := none
  deletedAt : Option Int := none
deriving DecidableEq, Repr

/-- A persisted message record (Mongo `messages` collection). -/
structure Message where
  mid : MessageId
  senderId : UserId
  groupId : GroupId
  text : Option String
  file : Option String
  tags : List String
  forwardedFrom : Option MessageId := none
  forwardedToGroups : List GroupId := []
  edited : EditedInfo := {}
  deleted : DeletedInfo := {}
  createdAt : Int
deriving DecidableEq, Repr

/-- A group record (Mongo `groups` collection): name, region tag, member and
manager user-id lists. -/
structure Group where
  gid : GroupId
  name : String
  region : String
  users : List UserId
  managers : List UserId
deriving DecidableEq, Repr

/-- The slice of a user record the embedded operations read and write. -/
structure User where
  uid : UserId
  username : String
  role : Role
  groupId : Option GroupId
  groupJoinedAt : Option Int
  isOnline : Bool
  lastSeen : Option Int
deriving DecidableEq, Repr

/-- A notification payload, as built by the socket handlers
(`type`, `title`, `message`, group and sender references, creation time). -/
structure Notification where
  ntype : String
  title : String
  message : String
  groupId : Option GroupId
  senderId : Option UserId
  createdAt : Int
deriving DecidableEq, Repr

/-- The 15-minute edit window, in milliseconds
(`const editTimeLimit = 15 * 60 * 1000`). -/
def editTimeLimit : Int := 15 * 60 * 1000

/-- Twenty-four hours in milliseconds (`24 * 60 * 60 * 1000`). -/
def dayMs : Int := 24 * 60 * 60 * 1000

/-- Seven days in milliseconds (`7 * 24 * 60 * 60 * 1000`). -/
def sevenDaysMs : Int := 7 * dayMs

/-- `Message.findById`, over the message store. -/
def findMessage (msgs : List Message) (messageId : MessageId) : Option Message :=
  msgs.find? (fun m => m.mid == messageId)

/-! ### Retention sweep (`cleanupDeletedMessages`, messageController.js) -/

/-- The hourly sweep: `Message.deleteMany({'deleted.isDeleted': true,
'deleted.deletedAt': {$lt: Date.now() - 24h}})`.  A record whose
`deleted.deletedAt` is absent is not matched by `$lt`. -/
def cleanupDeletedMessages (now : Int) (msgs : List Message) : List Message :=
  let twentyFourHoursAgo := now - dayMs
  msgs.filter (fun m =>
    !(m.deleted.isDeleted &&
      (match m.deleted.deletedAt with
       | some t => decide (t < twentyFourHoursAgo)
       | none => false)))

/-- One scheduled run of the sweep.  The body is wrapped in `try/catch`: a
failure of the `deleteMany` call (`sweepError = true`) is logged and swallowed,
leaving the store unchanged, and nothing propagates to the scheduler. -/
def cleanupRun (sweepError : Bool) (now : Int) (msgs : List Message) : List Message :=
  if sweepError then msgs else cleanupDeletedMessages now msgs

/-! ### HTTP send (`sendMessage`, messageController.js) -/

/-- HTTP statuses `sendMessage` can answer with. -/
inductive HttpSendStatus
  | badRequestTextOrFile
  | badRequestGroupId
  | notFoundGroup
  | forbiddenNotMember
  | created
deriving DecidableEq, Repr

/-- A `message:new` socket emission: target group room, message id, and
whether the payload carries the `isForwarded` marker. -/
structure Broadcast where
  room : GroupId
  mid : MessageId
  isForwarded : Bool
deriving DecidableEq, Repr

/-- Outcome of the HTTP `sendMessage`: response status, resulting message
store, and the `message:new` emissions performed. -/
structure HttpSendOutcome where
  status : HttpSendStatus
  msgs : List Message
  broadcasts : List Broadcast
deriving DecidableEq, Repr

/-- The HTTP `sendMessage` controller: validates text-or-file, requires a
group id, 404s on an unknown group, 403s a non-member, then persists one
record (`text: text || ''`, `file: file || null`, `tags: extractTags(text || '')`)
and emits one `message:new` to the group room.  `extractTags` (utils/parser.js
is not part of the snapshot) is passed as a parameter. -/
def sendMessage (extractTags : String → List String) (groups : List Group)
    (msgs : List Message) (userId : UserId) (text file : Option String)
    (groupId : Option GroupId) (nextId : MessageId) (now : Int) : HttpSendOutcome :=
  if !jsTruthyStr text && !file.isSome then
    ⟨.badRequestTextOrFile, msgs, []⟩
  else
    match groupId with
    | none => ⟨.badRequestGroupId, msgs, []⟩
    | some gid =>
      match groups.find? (fun g => g.gid == gid) with
      | none => ⟨.notFoundGroup, msgs, []⟩
      | some g =>
        if userId ∈ g.users ∨ userId ∈ g.managers then
          let m : Message :=
            { mid := nextId, senderId := userId, groupId := gid,
              text := some (text.getD ""), file := file,
              tags := extractTags (text.getD ""),
              forwardedFrom := none, forwardedToGroups := [],
              edited := {}, deleted := {}, createdAt := now }
          ⟨.created, msgs ++ [m], [⟨gid, nextId, false⟩]⟩
        else ⟨.forbiddenNotMember, msgs, []⟩

/-! ### Realtime send (`message:send` handler, chatSocket.js) -/

/-- Payload of the `message:send` socket event. -/
structure SendPayload where
  text : Option String
  file : Option String
  groupId : Option GroupId
  targetGroups : Option (List GroupId)
deriving DecidableEq, Repr

/-- An exception escaping the `message:send` handler (the handler has no
`try/catch`, so the acknowledgment callback is never invoked in this case). -/
inductive SendErr
  | createFailed
deriving DecidableEq, Repr

/-- Outcome of a successful `message:send`: the records persisted in creation
order (primary first, then one copy per forwarded group), the `message:new`
emissions in emission order, and the acknowledgment (`{ok: true, id}`). -/
structure SendResult where
  created : List Message
  broadcasts : List Broadcast
  ack : Option MessageId
deriving DecidableEq, Repr

/-- Modelled from the spec: the Mongoose model file `models/Message.js` is not
in the repository snapshot.  The spec's data model states body text is
"optional if a file attachment is present — at least one of the two required".
Whether the model actually enforces that requirement on create is unknown from
the snapshot, so it is a parameter: `strict = true` enforces it, `strict =
false` accepts any text/file combination. -/
def messageCreateAccepts (strict : Bool) (text file : Option String) : Bool :=
  !strict || jsTruthyStr text || file.isSome

/-- Forwarding-group resolution in the `message:send` handler: an explicitly
given non-empty `targetGroups` wins (`Group.find({_id: {$in: targetGroups}})`);
otherwise non-empty extracted tags select every group whose region is among
the tags (`Group.find({region: {$in: tags}})`); otherwise no forwarding. -/
def resolveForwardedGroups (groups : List Group) (targetGroups : Option (List GroupId))
    (tags : List String) : List Group :=
  match targetGroups with
  | some l =>
    if l.length > 0 then groups.filter (fun g => g.gid ∈ l)
    else if tags.length > 0 then groups.filter (fun g => g.region ∈ tags)
    else []
  | none =>
    if tags.length > 0 then groups.filter (fun g => g.region ∈ tags)
    else []

/-- The groups auto-selected by tag/region match. -/
def matchingGroups (groups : List Group) (tags : List String) : List Group :=
  groups.filter (fun g => g.region ∈ tags)

/-- Number of distinct regions among the tag-matched groups (the unit the
spec counts forwarded copies by). -/
def distinctMatchedRegions (groups : List Group) (tags : List String) : Nat :=
  ((matchingGroups groups tags).map Group.region).dedup.length

/-- The `message:send` socket handler (persistence and broadcast phase):
extract tags from the raw text, resolve the target group
(`groupId || user.groupId`), resolve forwarding groups, persist the primary
record, emit `message:new` to the target group room, then per forwarded group
persist a copy carrying `forwardedFrom` = the primary id and emit
`message:new` with the `isForwarded` marker to that group's room, and finally
acknowledge `{ok: true, id}`.  Fresh ids are `nextId`, `nextId+1`, ….  The
tag extractor (utils/parser.js is not in the snapshot) is a parameter taking
the raw, possibly absent, text.  A create the model rejects (see
`messageCreateAccepts`), or a create with no resolvable target group, throws:
the handler has no `try/catch`, so the error escapes (`SendErr`) and the
acknowledgment is never sent.  The notification phase that follows the
broadcasts in the source is modelled separately by `sendNotification`. -/
def messageSend (strict : Bool) (extractTags : Option String → List String)
    (groups : List Group) (user : User) (p : SendPayload)
    (nextId : MessageId) (now : Int) : Except SendErr SendResult :=
  let tags := extractTags p.text
  let targetGroupId : Option GroupId :=
    match p.groupId with
    | some g => some g
    | none => user.groupId
  match targetGroupId with
  | none => .error .createFailed
  | some tgid =>
    if messageCreateAccepts strict p.text p.file then
      let forwardedGroups := resolveForwardedGroups groups p.targetGroups tags
      let primary : Message :=
        { mid := nextId, senderId := user.uid, groupId := tgid,
          text := p.text, file := p.file, tags := tags,
          forwardedFrom := none,
          forwardedToGroups := forwardedGroups.map Group.gid,
          edited := {}, deleted := {}, createdAt := now }
      let copies : List Message := forwardedGroups.enum.map (fun ig =>
        { mid := nextId + 1 + ig.fst, senderId := user.uid, groupId := ig.snd.gid,
          text := p.text, file := p.file, tags := tags,
          forwardedFrom := some nextId,
          forwardedToGroups := forwardedGroups.map Group.gid,
          edited := {}, deleted := {}, createdAt := now })
      .ok { created := primary :: copies,
            broadcasts := ⟨tgid, nextId, false⟩ ::
              copies.map (fun c => ⟨c.groupId, c.mid, true⟩),
            ack := some nextId }
    else .error .createFailed

/-- Whether the realtime send completed (the acknowledgment was reached). -/
def sendSucceeds : Except SendErr SendResult → Bool
  | .ok _ => true
  | .error _ => false

/-- The records a realtime send persisted (empty when the handler aborted). -/
def sentMessages : Except SendErr SendResult → List Message
  | .ok r => r.created
  | .error _ => []

/-- The `message:new` emissions a realtime send performed. -/
def sentBroadcasts : Except SendErr SendResult → List Broadcast
  | .ok r => r.broadcasts
  | .error _ => []

/-- The acknowledgment a realtime send delivered, if any. -/
def sentAck : Except SendErr SendResult → Option MessageId
  | .ok r => r.ack
  | .error _ => none

/-! ### Edit (`editMessage`, messageController.js) -/

/-- Outcome classification of an edit request. -/
inductive EditStatus
  | notFound
  | notAuthorized
  | tooOld
  | ok
deriving DecidableEq, Repr

/-- Outcome of `editMessage`: status, resulting store, and the
`message:edited` emissions as (group room, message id) pairs. -/
structure EditResult where
  status : EditStatus
  msgs : List Message
  emits : List (GroupId × MessageId)
deriving DecidableEq, Repr

/-- The `editMessage` controller: 404 when the id is unknown, 403 when the
actor is not the sender, 400 when `Date.now() - createdAt > 15min`; otherwise
set text, re-extracted tags and the edited stamp on the target
(`editedAt := tPrimary`, one `new Date()`), and, when the target is an
original (no `forwardedFrom`), cascade the same text/tags plus a fresh edited
stamp (`editedAt := tCascade`, a later `new Date()`) to every record whose
`forwardedFrom` equals the target id via `updateMany`; finally emit a single
`message:edited` to the target's group room. -/
def editMessage (extractTags : String → List String) (msgs : List Message)
    (messageId : MessageId) (text : String) (userId : UserId)
    (now tPrimary tCascade : Int) : EditResult :=
  match findMessage msgs messageId with
  | none => ⟨.notFound, msgs, []⟩
  | some m =>
    if m.senderId ≠ userId then ⟨.notAuthorized, msgs, []⟩
    else if editTimeLimit < now - m.createdAt then ⟨.tooOld, msgs, []⟩
    else
      let msgs1 := msgs.map (fun x =>
        if x.mid = messageId then
          { x with text := some text, tags := extractTags text,
                   edited := ⟨true, some tPrimary⟩ }
        else x)
      let msgs2 :=
        if m.forwardedFrom = none then
          msgs1.map (fun x =>
            if x.forwardedFrom = some messageId then
              { x with text := some text, tags := extractTags text,
                       edited := ⟨true, some tCascade⟩ }
            else x)
        else msgs1
      ⟨.ok, msgs2, [(m.groupId, messageId)]⟩

/-! ### Delete (`deleteMessage`, messageController.js) -/

/-- Outcome classification of a delete request. -/
inductive DeleteStatus
  | notFound
  | notAuthorized
  | ok
deriving DecidableEq, Repr

/-- Outcome of `deleteMessage`: status, resulting store, and the
`message:deleted` emissions as (group room, message id, deleting actor). -/
structure DeleteResult where
  status : DeleteStatus
  msgs : List Message
  emits : List (GroupId × MessageId × UserId)
deriving DecidableEq, Repr

/-- The `deleteMessage` controller: 404 when the id is unknown; permitted when
the actor is the sender or has role `admin` or `manager`; tombstones the
target (`deletedAt := tPrimary`, one `new Date()`), and, when the target is an
original, cascades a tombstone with the same actor but a fresh timestamp
(`deletedAt := tCascade`, a later `new Date()`) to every record whose
`forwardedFrom` equals the target id; emits one `message:deleted` to the
target's group room. -/
def deleteMessage (msgs : List Message) (messageId : MessageId) (userId : UserId)
    (role : Role) (tPrimary tCascade : Int) : DeleteResult :=
  match findMessage msgs messageId with
  | none => ⟨.notFound, msgs, []⟩
  | some m =>
    if m.senderId = userId ∨ role = .admin ∨ role = .manager then
      let msgs1 := msgs.map (fun x =>
        if x.mid = messageId then
          { x with deleted := ⟨true, some userId, some tPrimary⟩ }
        else x)
      let msgs2 :=
        if m.forwardedFrom = none then
          msgs1.map (fun x =>
            if x.forwardedFrom = some messageId then
              { x with deleted := ⟨true, some userId, some tCascade⟩ }
            else x)
        else msgs1
      ⟨.ok, msgs2, [(m.groupId, messageId, userId)]⟩
    else ⟨.notAuthorized, msgs, []⟩

/-! ### Paginated read (`getMessages`, messageController.js) -/

/-- The Mongo query `getMessages` builds: same group, not tombstoned
(`'deleted.isDeleted': {$ne: true}`), created at or after the visibility floor
(`groupJoinedAt` when set, otherwise `Date.now() - 7 days`), and before the
optional `before` cursor. -/
def getMessagesQuery (groupId : GroupId) (userJoinedAt : Option Int)
    (before : Option Int) (now : Int) (m : Message) : Bool :=
  m.groupId == groupId &&
  !m.deleted.isDeleted &&
  (match userJoinedAt with
   | some j => decide (j ≤ m.createdAt)
   | none => decide (now - sevenDaysMs ≤ m.createdAt)) &&
  (match before with
   | some b => decide (m.createdAt < b)
   | none => true)

/-- Insertion step of the newest-first sort (`$sort: {createdAt: -1}`). -/
def insertByDesc (m : Message) : List Message → List Message
  | [] => [m]
  | x :: xs => if x.createdAt ≤ m.createdAt then m :: x :: xs else x :: insertByDesc m xs

/-- Newest-first sort used before pagination. -/
def sortByCreatedDesc : List Message → List Message
  | [] => []
  | x :: xs => insertByDesc x (sortByCreatedDesc xs)

/-- Insertion step of the chronological sort (`$sort: {createdAt: 1}`). -/
def insertByAsc (m : Message) : List Message → List Message
  | [] => [m]
  | x :: xs => if m.createdAt ≤ x.createdAt then m :: x :: xs else x :: insertByAsc m xs

/-- Final chronological sort applied to the selected page. -/
def sortByCreatedAsc : List Message → List Message
  | [] => []
  | x :: xs => insertByAsc x (sortByCreatedAsc xs)

/-- Outcome classification of the paginated read. -/
inductive GetStatus
  | notFoundGroup
  | forbiddenNotMember
  | serverErr
  | ok
deriving DecidableEq, Repr

/-- Outcome of `getMessages`: status and the returned page. -/
structure GetMessagesOutcome where
  status : GetStatus
  messages : List Message
deriving DecidableEq, Repr

/-- The `getMessages` controller: 404 on an unknown group, 403 on a
non-member; reads the requesting user's `groupJoinedAt`; filters the store
with `getMessagesQuery`, sorts newest-first, skips `(page-1)*limit`, takes
`limit`, and returns the page re-sorted chronologically.  Reading
`groupJoinedAt` off a user the store cannot find throws and is caught as a
500 (`serverErr`). -/
def getMessages (groups : List Group) (users : List User) (msgs : List Message)
    (userId : UserId) (groupId : GroupId) (page limit : Nat)
    (before : Option Int) (now : Int) : GetMessagesOutcome :=
  match groups.find? (fun g => g.gid == groupId) with
  | none => ⟨.notFoundGroup, []⟩
  | some g =>
    if userId ∈ g.users ∨ userId ∈ g.managers then
      match users.find? (fun u => u.uid == userId) with
      | none => ⟨.serverErr, []⟩
      | some user =>
        let skip := (page - 1) * limit
        let filtered := msgs.filter (getMessagesQuery groupId user.groupJoinedAt before now)
        let pageMsgs := ((sortByCreatedDesc filtered).drop skip).take limit
        ⟨.ok, sortByCreatedAsc pageMsgs⟩
    else ⟨.forbiddenNotMember, []⟩

/-! ### Notification store (notificationService.js) -/

/-- State of the two notification tiers: the durable per-user array on the
user document (`none` = no such user) and the Redis cache entry per user
(`none` = absent / evicted / expired). -/
structure NotifState where
  durable : UserId → Option (List Notification)
  cache : UserId → Option (List Notification)

/-- The 100-entry soft cap on the cache list: when the list exceeds 100, the
oldest entries are spliced off (`notifications.splice(0, length - 100)`). -/
def trimTo100 (l : List Notification) : List Notification :=
  if l.length > 100 then l.drop (l.length - 100) else l

/-- The durable write `User.findByIdAndUpdate(userId, {$push: {notifications:
notification}})`: appends to the user's array, a no-op for an unknown user. -/
def pushDurable (st : NotifState) (userId : UserId) (n : Notification) : NotifState :=
  { st with durable := fun u =>
      if u = userId then (st.durable u).map (fun l => l ++ [n]) else st.durable u }

/-- `sendNotification`: push onto the durable per-user array, then read the
cache entry (absent parses to `[]`), append, trim to the most recent 100, and
re-write the entry with a refreshed 24-hour TTL.  The whole body is wrapped in
`try/catch`: a throw from the durable write (`dbFails`) or from either Redis
call (`cacheFails`) lands in the catch, which logs and returns `false`; a
complete run returns `true`. -/
def sendNotification (dbFails cacheFails : Bool) (st : NotifState)
    (userId : UserId) (n : Notification) : Bool × NotifState :=
  if dbFails then (false, st)
  else
    let st1 := pushDurable st userId n
    if cacheFails then (false, st1)
    else
      let lst := trimTo100 (((st1.cache userId).getD []) ++ [n])
      (true, { st1 with cache := fun u =>
        if u = userId then some lst else st1.cache u })

/-- `getNotifications`: cache-first — return the cached list when the entry is
present; on a miss read the user's durable array and, when the user document
exists, backfill the cache (refreshing the TTL) and return the array; return
`[]` when neither tier has data.  The body is wrapped in `try/catch` returning
`[]`, so no error ever reaches the caller. -/
def getNotifications (st : NotifState) (userId : UserId) :
    List Notification × NotifState :=
  match st.cache userId with
  | some l => (l, st)
  | none =>
    match st.durable userId with
    | some l =>
      (l, { st with cache := fun u => if u = userId then some l else st.cache u })
    | none => ([], st)

/-! ### Presence transitions (connection / disconnect handlers, chatSocket.js) -/

/-- A presence-emission destination: the user's group room via
`socket.to(...)` (excludes the emitting connection), the admin room, the
connection itself (`socket.emit`), or every connection (`io.emit`). -/
inductive Dest
  | groupRoom (g : GroupId)
  | adminRoom
  | selfSocket
  | global
deriving DecidableEq, Repr

/-- Presence event names. -/
inductive PresenceEvent
  | userOnline
  | userOffline
  | userStatusChanged
deriving DecidableEq, Repr

/-- One presence emission: destination, event name, and the `isOnline` flag
carried in the payload. -/
structure PresenceEmit where
  dest : Dest
  event : PresenceEvent
  isOnline : Bool
deriving DecidableEq, Repr

/-- The emissions the connection handler performs after setting the user
online: `user:online` to the group room (only when the user has a default
group), to the admin room, and to the connecting socket itself, then a global
`user:status:changed`. -/
def connectEmits (user : User) : List PresenceEmit :=
  (match user.groupId with
   | some g => [⟨.groupRoom g, .userOnline, true⟩]
   | none => []) ++
  [⟨.adminRoom, .userOnline, true⟩,
   ⟨.selfSocket, .userOnline, true⟩,
   ⟨.global, .userStatusChanged, true⟩]

/-- The connect transition: `findByIdAndUpdate(userId, {isOnline: true,
lastSeen: new Date()})`, then the online emissions. -/
def connectTransition (now : Int) (user : User) : User × List PresenceEmit :=
  ({ user with isOnline := true, lastSeen := some now }, connectEmits user)

/-- The emissions the disconnect handler performs, mirroring `connectEmits`
with `user:offline` and the offline `user:status:changed`. -/
def disconnectEmits (user : User) : List PresenceEmit :=
  (match user.groupId with
   | some g => [⟨.groupRoom g, .userOffline, false⟩]
   | none => []) ++
  [⟨.adminRoom, .userOffline, false⟩,
   ⟨.selfSocket, .userOffline, false⟩,
   ⟨.global, .userStatusChanged, false⟩]

/-- The disconnect transition: `findByIdAndUpdate(userId, {isOnline: false,
lastSeen: new Date()})`, then the offline emissions. -/
def disconnectTransition (now : Int) (user : User) : User × List PresenceEmit :=
  ({ user with isOnline := false, lastSeen := some now }, disconnectEmits user)

/-! ### Concrete fixtures used by witnesses and counterexamples -/

/-- A plain text message record. -/
def sampleMsg (mid : MessageId) (senderId : UserId) (groupId : GroupId)
    (fwd : Option MessageId) (createdAt : Int) : Message :=
  { mid := mid, senderId := senderId, groupId := groupId,
    text := some "hi", file := none, tags := [],
    forwardedFrom := fwd, forwardedToGroups := [],
    edited := {}, deleted := {}, createdAt := createdAt }

/-- A tag extractor finding no mentions. -/
def extNone : Option String → List String := fun _ => []

/-- A tag extractor finding the single mention token `r`. -/
def extTagR : Option String → List String := fun _ => ["r"]

/-- A tag extractor over plain strings, finding no mentions. -/
def extStr : String → List String := fun _ => []

/-- Two groups sharing the region tag `r`. -/
def grpA : Group := ⟨1, "A", "r", [], []⟩

/-- Second group with region `r` (regions are not unique across groups: the
`groups` collection has only a non-unique index on `region`). -/
def grpB : Group := ⟨2, "B", "r", [], []⟩

/-- A group whose member list contains user 10. -/
def grpG : Group := ⟨5, "G", "g", [10], []⟩

/-- Group catalogue with a single group. -/
def grpsOne : List Group := [grpG]

/-- Group catalogue with two groups sharing one region. -/
def grpsTwo : List Group := [grpA, grpB]

/-- A member of group 5. -/
def userWithGroup : User := ⟨10, "alice", .member, some 5, none, false, none⟩

/-- A user with no default group. -/
def userNoGroup : User := ⟨11, "bob", .member, none, none, false, none⟩

/-- A member of group 5 whose `groupJoinedAt` is 100. -/
def userJoined : User := ⟨10, "alice", .member, some 5, some 100, false, none⟩

/-- A `message:send` payload with neither text nor file. -/
def payloadEmpty : SendPayload := ⟨none, none, none, none⟩

/-- A `message:send` payload whose text mentions region `r`. -/
def payloadTagged : SendPayload := ⟨some "@r", none, none, none⟩

/-- Store for the edit claims: an original (id 1, sender 10, group 5), its
forwarded copy (id 2, group 6), and an unrelated original (id 3, sender 20). -/
def msgsEdit : List Message :=
  [sampleMsg 1 10 5 none 0, sampleMsg 2 10 6 (some 1) 0, sampleMsg 3 20 7 none 0]

/-- Store for the delete claims: an original (id 1, sender 10, group 5) and
its forwarded copy (id 2, group 6). -/
def msgsDel : List Message :=
  [sampleMsg 1 10 5 none 0, sampleMsg 2 10 6 (some 1) 0]

/-- A record tombstoned at time 0 (25 hours before time 90000000). -/
def tomb25 : Message :=
  { sampleMsg 1 10 5 none 0 with deleted := ⟨true, some 10, some 0⟩ }

/-- A record tombstoned at time 7200000 (23 hours before time 90000000). -/
def tomb23 : Message :=
  { sampleMsg 2 10 5 none 0 with deleted := ⟨true, some 10, some 7200000⟩ }

/-- A live (non-tombstoned) record. -/
def live1 : Message := sampleMsg 3 10 5 none 0

/-- Store for the retention-sweep claim. -/
def msgsC9 : List Message := [tomb25, tomb23, live1]

/-- A sample notification. -/
def notif0 : Notification := ⟨"message", "New message from alice", "hi", some 5, some 10, 0⟩

/-- A second sample notification. -/
def notif1 : Notification := ⟨"user_joined", "bob joined the group", "bob has joined G", some 5, some 11, 1⟩

/-- Notification tiers: user 1 exists with an empty durable list, cache empty. -/
def notifStEmpty : NotifState := ⟨fun u => if u = 1 then some [] else none, fun _ => none⟩

/-- Notification tiers: user 1 has one durable notification, cache empty
(simulated eviction). -/
def notifStMiss : NotifState := ⟨fun u => if u = 1 then some [notif1] else none, fun _ => none⟩

/-- Notification tiers with no data anywhere. -/
def notifStNone : NotifState := ⟨fun _ => none, fun _ => none⟩

/-- Message visible to `userJoined` (created after the join date). -/
def msgNew : Message := sampleMsg 21 10 5 none 150

/-- Message created before `userJoined`'s join date. -/
def msgOld : Message := sampleMsg 22 10 5 none 50

/-- Tombstoned message in group 5. -/
def msgDel : Message :=
  { sampleMsg 23 10 5 none 200 with deleted := ⟨true, some 10, some 300⟩ }

/-- Message in another group. -/
def msgOther : Message := sampleMsg 24 10 6 none 150

/-- Store for the paginated-read claim. -/
def msgsGet : List Message := [msgNew, msgOld, msgDel, msgOther]

/-! ### Helper lemmas -/

/-- Trimming to the most recent 100 preserves the last element just appended. -/
theorem trimTo100_concat_getLast (l : List Notification) (n : Notification) :
    (trimTo100 (l ++ [n])).getLast? = some n := by
  rw [trimTo100]
  split
  · have hk : (l ++ [n]).length - 100 ≤ l.length := by
      simp only [List.length_append, List.length_singleton]
      omega
    rw [List.drop_append_of_le_length hk, List.getLast?_concat]
  · exact List.getLast?_concat l

/-- No group matches an empty tag set. -/
theorem matchingGroups_nil (groups : List Group) :
    matchingGroups groups [] = [] := by
  induction groups with
  | nil => rfl
  | cons g gs ih =>
    rw [matchingGroups, List.filter_cons, if_neg (by simp)]
    exact ih

/-- With `targetGroups` absent or empty, forwarding-group resolution is
exactly the tag/region match. -/
theorem resolveForwardedGroups_auto (groups : List Group)
    (tg : Option (List GroupId)) (tags : List String)
    (h : tg = none ∨ tg = some []) :
    resolveForwardedGroups groups tg tags = matchingGroups groups tags := by
  rcases h with h | h <;> subst h <;>
    cases tags with
    | nil => simp [resolveForwardedGroups, matchingGroups_nil]
    | cons t ts => simp [resolveForwardedGroups, matchingGroups]

/-- Membership through the newest-first insertion step. -/
theorem mem_insertByDesc {a m : Message} {l : List Message} :
    a ∈ insertByDesc m l ↔ a = m ∨ a ∈ l := by
  induction l with
  | nil => simp [insertByDesc]
  | cons x xs ih =>
    rw [insertByDesc]
    split
    · simp
    · simp only [List.mem_cons, ih]
      tauto

/-- Membership is invariant under the newest-first sort. -/
theorem mem_sortByCreatedDesc {a : Message} {l : List Message} :
    a ∈ sortByCreatedDesc l ↔ a ∈ l := by
  induction l with
  | nil => simp [sortByCreatedDesc]
  | cons x xs ih =>
    rw [sortByCreatedDesc, mem_insertByDesc]
    simp [ih]

/-- Membership through the chronological insertion step. -/
theorem mem_insertByAsc {a m : Message} {l : List Message} :
    a ∈ insertByAsc m l ↔ a = m ∨ a ∈ l := by
  induction l with
  | nil => simp [insertByAsc]
  | cons x xs ih =>
    rw [insertByAsc]
    split
    · simp
    · simp only [List.mem_cons, ih]
      tauto

/-- Membership is invariant under the chronological sort. -/
theorem mem_sortByCreatedAsc {a : Message} {l : List Message} :
    a ∈ sortByCreatedAsc l ↔ a ∈ l := by
  induction l with
  | nil => simp [sortByCreatedAsc]
  | cons x xs ih =>
    rw [sortByCreatedAsc, mem_insertByAsc]
    simp [ih]

/-- The newest-first insertion step grows the length by one. -/
theorem length_insertByDesc (m : Message) (l : List Message) :
    (insertByDesc m l).length = l.length + 1 := by
  induction l with
  | nil => rfl
  | cons x xs ih =>
    rw [insertByDesc]
    split
    · simp
    · simp [ih]

/-- The newest-first sort preserves the length. -/
theorem length_sortByCreatedDesc (l : List Message) :
    (sortByCreatedDesc l).length = l.length := by
  induction l with
  | nil => rfl
  | cons x xs ih => rw [sortByCreatedDesc, length_insertByDesc, ih, List.length_cons]

/-! ### Claim C9 — retention sweep -/

/-- Claim C9: a run of the retention sweep keeps a message if and only if it
was in the store and is not a tombstone whose deletion timestamp lies more
than 24 hours in the past; a sweep-run error is swallowed, leaving the store
unchanged, and an error-free run is exactly the sweep. -/
theorem cleanup_retention (now : Int) (msgs : List Message) (m : Message) :
    (m ∈ cleanupDeletedMessages now msgs ↔
      m ∈ msgs ∧ ¬(m.deleted.isDeleted = true ∧
        ∃ t, m.deleted.deletedAt = some t ∧ now - t > dayMs)) ∧
    cleanupRun true now msgs = msgs ∧
    cleanupRun false now msgs = cleanupDeletedMessages now msgs := by
  have hd24 : dayMs = 86400000 := rfl
  refine ⟨?_, rfl, rfl⟩
  rw [cleanupDeletedMessages, List.mem_filter]
  constructor
  · rintro ⟨hmem, hb⟩
    refine ⟨hmem, ?_⟩
    rintro ⟨hd, t, ht, hgt⟩
    rw [hd, ht] at hb
    simp only [Bool.true_and, Bool.not_eq_true', decide_eq_false_iff_not, not_lt] at hb
    rw [hd24] at hb hgt
    omega
  · rintro ⟨hmem, hno⟩
    refine ⟨hmem, ?_⟩
    cases hdel : m.deleted.isDeleted with
    | false => simp [hdel]
    | true =>
      cases hat : m.deleted.deletedAt with
      | none => simp [hdel, hat]
      | some t =>
        simp only [hdel, hat, Bool.true_and, Bool.not_eq_true', decide_eq_false_iff_not,
          not_lt]
        rw [hd24]
        by_contra hlt
        refine hno ⟨hdel, t, hat, ?_⟩
        rw [hd24]
        omega

/-- Witness for C9: at time 90000000 the sweep removes the record tombstoned
25 hours earlier, keeps the record tombstoned 23 hours earlier, keeps the
live record, and a failed run leaves the store unchanged. -/
theorem cleanup_retention_witness :
    tomb25 ∉ cleanupDeletedMessages 90000000 msgsC9 ∧
    tomb23 ∈ cleanupDeletedMessages 90000000 msgsC9 ∧
    live1 ∈ cleanupDeletedMessages 90000000 msgsC9 ∧
    cleanupRun true 90000000 msgsC9 = msgsC9 := by
  refine ⟨fun hmem => ?_, ?_, ?_, (cleanup_retention 90000000 msgsC9 live1).2.1⟩
  · rcases (cleanup_retention 90000000 msgsC9 tomb25).1.mp hmem with ⟨-, hno⟩
    exact hno ⟨rfl, 0, rfl, by decide⟩
  · refine (cleanup_retention 90000000 msgsC9 tomb23).1.mpr ⟨by decide, ?_⟩
    rintro ⟨-, t, ht, hgt⟩
    rw [show tomb23.deleted.deletedAt = some 7200000 from rfl] at ht
    cases ht
    have hd24 : dayMs = 86400000 := rfl
    rw [hd24] at hgt
    omega
  · refine (cleanup_retention 90000000 msgsC9 live1).1.mpr ⟨by decide, ?_⟩
    rintro ⟨hd, -⟩
    exact absurd hd (by decide)

/-! ### Claim C2 — edit authorization and time window -/

/-- Claim C2: an edit of an existing message succeeds if and only if the
actor is the message's sender and at most 15 minutes have elapsed since its
creation; a wrong sender fails as the authorization condition, an expired
window as the distinct validation condition, and in both failure cases the
store is returned unchanged and nothing is emitted. -/
theorem editMessage_auth_and_window (ext : String → List String)
    (msgs : List Message) (messageId : MessageId) (text : String)
    (userId : UserId) (now tPrimary tCascade : Int) (m : Message)
    (hm : findMessage msgs messageId = some m) :
    ((editMessage ext msgs messageId text userId now tPrimary tCascade).status = .ok ↔
      m.senderId = userId ∧ now - m.createdAt ≤ editTimeLimit) ∧
    (m.senderId ≠ userId →
      editMessage ext msgs messageId text userId now tPrimary tCascade =
        ⟨.notAuthorized, msgs, []⟩) ∧
    (m.senderId = userId → editTimeLimit < now - m.createdAt →
      editMessage ext msgs messageId text userId now tPrimary tCascade =
        ⟨.tooOld, msgs, []⟩) := by
  simp only [editMessage, hm]
  by_cases hs : m.senderId = userId
  · rw [if_neg (not_not_intro hs)]
    by_cases htl : editTimeLimit < now - m.createdAt
    · rw [if_pos htl]
      exact ⟨⟨fun h => EditStatus.noConfusion h, fun h => absurd htl (not_lt.mpr h.2)⟩,
        fun hneq => absurd hs hneq, fun _ _ => rfl⟩
    · rw [if_neg htl]
      exact ⟨⟨fun _ => ⟨hs, not_lt.mp htl⟩, fun _ => rfl⟩,
        fun hneq => absurd hs hneq, fun _ h => absurd h htl⟩
  · rw [if_pos hs]
    exact ⟨⟨fun h => EditStatus.noConfusion h, fun h => absurd h.1 hs⟩,
      fun _ => rfl, fun heq _ => absurd heq hs⟩

/-- Witness for C2: in the concrete store, the sender editing at exactly the
15-minute boundary succeeds, a non-sender is rejected as unauthorized with
the store unchanged, and the sender one millisecond past the window is
rejected as too old with the store unchanged. -/
theorem editMessage_auth_and_window_witness :
    (editMessage extStr msgsEdit 1 "b" 10 900000 1 2).status = .ok ∧
    editMessage extStr msgsEdit 1 "b" 20 0 1 2 = ⟨.notAuthorized, msgsEdit, []⟩ ∧
    editMessage extStr msgsEdit 1 "b" 10 900001 1 2 = ⟨.tooOld, msgsEdit, []⟩ := by
  refine ⟨?_, ?_, ?_⟩
  · exact (editMessage_auth_and_window extStr msgsEdit 1 "b" 10 900000 1 2
      (sampleMsg 1 10 5 none 0) rfl).1.mpr ⟨rfl, by decide⟩
  · exact (editMessage_auth_and_window extStr msgsEdit 1 "b" 20 0 1 2
      (sampleMsg 1 10 5 none 0) rfl).2.1 (by decide)
  · exact (editMessage_auth_and_window extStr msgsEdit 1 "b" 10 900001 1 2
      (sampleMsg 1 10 5 none 0) rfl).2.2 rfl (by decide)

/-! ### Claim C8 — edit cascade and frame -/

/-- Claim C8: a successful edit of an original message rewrites text, tags
and the edited stamp of the target and of every record whose `forwardedFrom`
equals the target's id, preserving all their other fields and leaving every
unrelated record untouched; a successful edit of a forwarded copy rewrites
only that copy; in both cases exactly one `message:edited` event is emitted,
to the edited message's group room. -/
theorem editMessage_cascade_frame (ext : String → List String)
    (msgs : List Message) (messageId : MessageId) (text : String)
    (userId : UserId) (now tPrimary tCascade : Int) (m : Message)
    (hm : findMessage msgs messageId = some m)
    (hs : m.senderId = userId)
    (ht : now - m.createdAt ≤ editTimeLimit) :
    (editMessage ext msgs messageId text userId now tPrimary tCascade).status = .ok ∧
    (editMessage ext msgs messageId text userId now tPrimary tCascade).emits =
      [(m.groupId, messageId)] ∧
    (m.forwardedFrom = none →
      ∃ f, (editMessage ext msgs messageId text userId now tPrimary tCascade).msgs =
          msgs.map f ∧
        (∀ x : Message, x.forwardedFrom = some messageId →
          (f x).text = some text ∧ (f x).tags = ext text ∧
          (f x).edited.isEdited = true ∧ (f x).mid = x.mid ∧
          (f x).senderId = x.senderId ∧ (f x).groupId = x.groupId ∧
          (f x).file = x.file ∧ (f x).forwardedFrom = x.forwardedFrom ∧
          (f x).deleted = x.deleted ∧ (f x).createdAt = x.createdAt) ∧
        (∀ x : Message, x.mid = messageId → x.forwardedFrom = none →
          f x = { x with text := some text, tags := ext text,
                         edited := ⟨true, some tPrimary⟩ }) ∧
        (∀ x : Message, x.mid ≠ messageId → x.forwardedFrom ≠ some messageId →
          f x = x)) ∧
    (m.forwardedFrom ≠ none →
      ∃ f, (editMessage ext msgs messageId text userId now tPrimary tCascade).msgs =
          msgs.map f ∧
        (∀ x : Message, x.mid = messageId →
          f x = { x with text := some text, tags := ext text,
                         edited := ⟨true, some tPrimary⟩ }) ∧
        (∀ x : Message, x.mid ≠ messageId → f x = x)) := by
  simp only [editMessage, hm]
  rw [if_neg (not_not_intro hs), if_neg (not_lt.mpr ht)]
  refine ⟨rfl, rfl, ?_, ?_⟩
  · intro hff
    rw [if_pos hff, List.map_map]
    refine ⟨_, rfl, ?_, ?_, ?_⟩
    · intro x hx
      by_cases hxm : x.mid = messageId <;> simp [Function.comp, hxm, hx]
    · intro x hxm hxf
      simp [Function.comp, hxm, hxf]
    · intro x hxm hxf
      simp [Function.comp, hxm, hxf]
  · intro hff
    rw [if_neg hff]
    refine ⟨_, rfl, ?_, ?_⟩
    · intro x hxm
      simp [hxm]
    · intro x hxm
      simp [hxm]

/-- Witness for C8: the sender edits the original (id 1) of the concrete
store inside the window; the edit succeeds and exactly one `message:edited`
event is emitted, to group room 5. -/
theorem editMessage_cascade_frame_witness :
    (editMessage extStr msgsEdit 1 "b" 10 60000 7 8).status = .ok ∧
    (editMessage extStr msgsEdit 1 "b" 10 60000 7 8).emits = [(5, 1)] := by
  have h := editMessage_cascade_frame extStr msgsEdit 1 "b" 10 60000 7 8
    (sampleMsg 1 10 5 none 0) rfl rfl (by decide)
  exact ⟨h.1, h.2.1⟩

/-! ### Claim C3 — delete authorization and cascade -/

/-- Claim C3 counterexample: deleting original message 1 (with forwarded copy
2) stamps the primary tombstone at one `new Date()` (here 1000) and the
cascaded tombstones at a later `new Date()` (here 1001), so the cascaded
record's `deleted` fields do not equal the primary's, contradicting the claim
that they are equal. -/
theorem deleteMessage_cascade_stamp_cex :
    (findMessage (deleteMessage msgsDel 1 10 .member 1000 1001).msgs 1).map Message.deleted =
      some ⟨true, some 10, some 1000⟩ ∧
    (findMessage (deleteMessage msgsDel 1 10 .member 1000 1001).msgs 2).map Message.deleted =
      some ⟨true, some 10, some 1001⟩ ∧
    (findMessage (deleteMessage msgsDel 1 10 .member 1000 1001).msgs 1).map Message.deleted ≠
      (findMessage (deleteMessage msgsDel 1 10 .member 1000 1001).msgs 2).map Message.deleted := by
  exact ⟨rfl, rfl, by decide⟩

/-- Claim C3 (amended): a delete of an existing message succeeds if and only
if the actor is the sender or has role `manager` or `admin` (no time
condition); an unauthorized request leaves the store unchanged and emits
nothing; on success the target is tombstoned with the actor and the primary
timestamp, and when the target is an original every record whose
`forwardedFrom` equals its id is tombstoned with the same `isDeleted` and
`deletedBy` but a timestamp taken at cascade time, all other records and
fields untouched; exactly one `message:deleted` event is emitted, to the
target's group room. -/
theorem deleteMessage_authorization_and_cascade (msgs : List Message)
    (messageId : MessageId) (userId : UserId) (role : Role)
    (tPrimary tCascade : Int) (m : Message)
    (hm : findMessage msgs messageId = some m) :
    ((deleteMessage msgs messageId userId role tPrimary tCascade).status = .ok ↔
      (m.senderId = userId ∨ role = .admin ∨ role = .manager)) ∧
    (¬(m.senderId = userId ∨ role = .admin ∨ role = .manager) →
      deleteMessage msgs messageId userId role tPrimary tCascade =
        ⟨.notAuthorized, msgs, []⟩) ∧
    ((m.senderId = userId ∨ role = .admin ∨ role = .manager) →
      (deleteMessage msgs messageId userId role tPrimary tCascade).emits =
        [(m.groupId, messageId, userId)] ∧
      (m.forwardedFrom = none →
        ∃ f, (deleteMessage msgs messageId userId role tPrimary tCascade).msgs =
            msgs.map f ∧
          (∀ x : Message, x.mid = messageId → x.forwardedFrom = none →
            f x = { x with deleted := ⟨true, some userId, some tPrimary⟩ }) ∧
          (∀ x : Message, x.forwardedFrom = some messageId →
            f x = { x with deleted := ⟨true, some userId, some tCascade⟩ }) ∧
          (∀ x : Message, x.mid ≠ messageId → x.forwardedFrom ≠ some messageId →
            f x = x)) ∧
      (m.forwardedFrom ≠ none →
        ∃ f, (deleteMessage msgs messageId userId role tPrimary tCascade).msgs =
            msgs.map f ∧
          (∀ x : Message, x.mid = messageId →
            f x = { x with deleted := ⟨true, some userId, some tPrimary⟩ }) ∧
          (∀ x : Message, x.mid ≠ messageId → f x = x))) := by
  simp only [deleteMessage, hm]
  by_cases hcan : m.senderId = userId ∨ role = .admin ∨ role = .manager
  · rw [if_pos hcan]
    refine ⟨⟨fun _ => hcan, fun _ => rfl⟩, fun hn => absurd hcan hn, fun _ => ⟨rfl, ?_, ?_⟩⟩
    · intro hff
      rw [if_pos hff, List.map_map]
      refine ⟨_, rfl, ?_, ?_, ?_⟩
      · intro x hxm hxf
        simp [Function.comp, hxm, hxf]
      · intro x hx
        by_cases hxm : x.mid = messageId <;> simp [Function.comp, hxm, hx]
      · intro x hxm hxf
        simp [Function.comp, hxm, hxf]
    · intro hff
      rw [if_neg hff]
      refine ⟨_, rfl, ?_, ?_⟩
      · intro x hxm
        simp [hxm]
      · intro x hxm
        simp [hxm]
  · rw [if_neg hcan]
    exact ⟨⟨fun h => DeleteStatus.noConfusion h, fun h => absurd h hcan⟩,
      fun _ => rfl, fun h => absurd h hcan⟩

/-- Witness for C3: in the concrete store a manager who is not the sender may
delete, a plain member who is not the sender may not (store unchanged), and
the sender's delete emits exactly one `message:deleted` to group room 5. -/
theorem deleteMessage_authorization_and_cascade_witness :
    (deleteMessage msgsDel 1 99 .manager 0 0).status = .ok ∧
    deleteMessage msgsDel 1 99 .member 0 0 = ⟨.notAuthorized, msgsDel, []⟩ ∧
    (deleteMessage msgsDel 1 10 .member 1000 1001).emits = [(5, 1, 10)] := by
  have h1 := deleteMessage_authorization_and_cascade msgsDel 1 99 .manager 0 0
    (sampleMsg 1 10 5 none 0) rfl
  have h2 := deleteMessage_authorization_and_cascade msgsDel 1 99 .member 0 0
    (sampleMsg 1 10 5 none 0) rfl
  have h3 := deleteMessage_authorization_and_cascade msgsDel 1 10 .member 1000 1001
    (sampleMsg 1 10 5 none 0) rfl
  exact ⟨h1.1.mpr (Or.inr (Or.inr rfl)), h2.2.1 (by decide), (h3.2.2 (Or.inl rfl)).1⟩

/-! ### Claim C5 — presence transitions -/

/-- Claim C5 counterexample: a user with no default group receives only three
presence emissions on connect and three on disconnect (admin room, self,
global) — the group-room emission is skipped — contradicting the claim that
every authenticated connection emits to exactly four destinations. -/
theorem presence_three_destinations_cex :
    ((connectTransition 0 userNoGroup).2).length = 3 ∧
    ((disconnectTransition 0 userNoGroup).2).length = 3 := by
  exact ⟨rfl, rfl⟩

/-- Claim C5 (amended): connecting sets the user online and stamps last-seen;
when the user has a default group the online event then goes to exactly four
destinations in order — group room excluding self, admin room, the user's own
socket, and a global status broadcast — and when the user has no default
group the group-room emission is skipped, leaving the remaining three in the
same order; disconnect performs the mirror offline transition with the
symmetric emissions. -/
theorem presence_transitions (user : User) (now : Int) :
    (∀ g : GroupId, user.groupId = some g →
      connectTransition now user =
        ({ user with isOnline := true, lastSeen := some now },
         [⟨.groupRoom g, .userOnline, true⟩, ⟨.adminRoom, .userOnline, true⟩,
          ⟨.selfSocket, .userOnline, true⟩, ⟨.global, .userStatusChanged, true⟩]) ∧
      disconnectTransition now user =
        ({ user with isOnline := false, lastSeen := some now },
         [⟨.groupRoom g, .userOffline, false⟩, ⟨.adminRoom, .userOffline, false⟩,
          ⟨.selfSocket, .userOffline, false⟩, ⟨.global, .userStatusChanged, false⟩])) ∧
    (user.groupId = none →
      connectTransition now user =
        ({ user with isOnline := true, lastSeen := some now },
         [⟨.adminRoom, .userOnline, true⟩, ⟨.selfSocket, .userOnline, true⟩,
          ⟨.global, .userStatusChanged, true⟩]) ∧
      disconnectTransition now user =
        ({ user with isOnline := false, lastSeen := some now },
         [⟨.adminRoom, .userOffline, false⟩, ⟨.selfSocket, .userOffline, false⟩,
          ⟨.global, .userStatusChanged, false⟩])) := by
  constructor
  · intro g hg
    constructor <;>
      simp [connectTransition, disconnectTransition, connectEmits, disconnectEmits, hg]
  · intro hg
    constructor <;>
      simp [connectTransition, disconnectTransition, connectEmits, disconnectEmits, hg]

/-- Witness for C5: for the concrete member of group 5, connecting at time 7
yields the online state update and the four emissions in order. -/
theorem presence_transitions_witness :
    connectTransition 7 userWithGroup =
      ({ userWithGroup with isOnline := true, lastSeen := some 7 },
       [⟨.groupRoom 5, .userOnline, true⟩, ⟨.adminRoom, .userOnline, true⟩,
        ⟨.selfSocket, .userOnline, true⟩, ⟨.global, .userStatusChanged, true⟩]) ∧
    disconnectTransition 7 userWithGroup =
      ({ userWithGroup with isOnline := false, lastSeen := some 7 },
       [⟨.groupRoom 5, .userOffline, false⟩, ⟨.adminRoom, .userOffline, false⟩,
        ⟨.selfSocket, .userOffline, false⟩, ⟨.global, .userStatusChanged, false⟩]) :=
  (presence_transitions userWithGroup 7).1 5 rfl

/-! ### Claim C4 — cache-tier failure during notification record -/

/-- Claim C4 counterexample: with user 1 present in the durable store, a run
of `sendNotification` whose durable write succeeds and whose cache write
throws leaves the notification appended durably yet returns `false` — the
cache-tier failure is surfaced as an operation failure, contradicting the
claim that the operation still reports success. -/
theorem sendNotification_cache_failure_cex :
    (sendNotification false true notifStEmpty 1 notif0).1 = false ∧
    ((sendNotification false true notifStEmpty 1 notif0).2).durable 1 = some [notif0] ∧
    notifStEmpty.durable 1 = some [] := by
  exact ⟨rfl, rfl, rfl⟩

/-- Claim C4 (amended): whenever the durable write succeeds and the
subsequent cache access throws, `sendNotification` returns `false` to its
caller — reporting failure, not success — while the durable write remains
applied and the cache is left untouched. -/
theorem sendNotification_cache_failure (st : NotifState) (userId : UserId)
    (n : Notification) :
    sendNotification false true st userId n = (false, pushDurable st userId n) := rfl

/-! ### Claim C7 — record/fetch round trip and fallback -/

/-- Claim C7: recording a notification and immediately fetching returns a
list whose last element is the just-recorded notification (served from the
cache entry the record wrote); when the cache entry is absent at fetch time,
fetch returns the durable per-user list, repopulates the cache with it, and a
refetch returns the same content; and when neither tier has data the fetch
returns the empty list with the state unchanged — no error reaches the
caller. -/
theorem notificationStore_record_fetch (st : NotifState) (userId : UserId)
    (n : Notification) (l : List Notification) :
    ((getNotifications (sendNotification false false st userId n).2 userId).1.getLast? =
      some n) ∧
    (st.cache userId = none → st.durable userId = some l →
      (getNotifications st userId).1 = l ∧
      ((getNotifications st userId).2).cache userId = some l ∧
      (getNotifications ((getNotifications st userId).2) userId).1 = l) ∧
    (st.cache userId = none → st.durable userId = none →
      getNotifications st userId = ([], st)) := by
  refine ⟨?_, ?_, ?_⟩
  · simp only [sendNotification, pushDurable, getNotifications, Bool.false_eq_true,
      if_false, ite_false, ite_true, if_pos rfl]
    exact trimTo100_concat_getLast _ n
  · intro hc hd
    simp [getNotifications, hc, hd]
  · intro hc hd
    simp [getNotifications, hc, hd]

/-- Witness for C7: with user 1 holding one durable notification and an empty
cache, recording then fetching ends with the new notification last; a plain
fetch falls back to the durable list, repopulates the cache, and a refetch
agrees; and with no data anywhere the fetch returns the empty list with the
state unchanged. -/
theorem notificationStore_record_fetch_witness :
    ((getNotifications (sendNotification false false notifStMiss 1 notif0).2 1).1.getLast? =
      some notif0) ∧
    (getNotifications notifStMiss 1).1 = [notif1] ∧
    ((getNotifications notifStMiss 1).2).cache 1 = some [notif1] ∧
    (getNotifications ((getNotifications notifStMiss 1).2) 1).1 = [notif1] ∧
    getNotifications notifStNone 1 = ([], notifStNone) := by
  have h := notificationStore_record_fetch notifStMiss 1 notif0 [notif1]
  have hb := h.2.1 rfl rfl
  have h0 := (notificationStore_record_fetch notifStNone 1 notif0 []).2.2 rfl rfl
  exact ⟨h.1, hb.1, hb.2.1, hb.2.2, h0⟩

/-! ### Claim C6 — empty send validation -/

/-- Claim C6 counterexample: a realtime `message:send` with neither text nor
file is not rejected by any validation in the handler.  When the message
model enforces the spec's text-or-file requirement the create throws and the
handler aborts with no acknowledgment — the failure is never surfaced to the
sender as a validation failure; when the model does not enforce it the
handler persists one record and broadcasts it — side effects occur and no
failure is reported at all.  Either way the claim is false on the realtime
path. -/
theorem message_send_empty_cex :
    messageSend true extNone grpsOne userWithGroup payloadEmpty 1 0 =
      .error .createFailed ∧
    sendSucceeds (messageSend false extNone grpsOne userWithGroup payloadEmpty 1 0) =
      true ∧
    (sentMessages (messageSend false extNone grpsOne userWithGroup payloadEmpty 1 0)).length =
      1 ∧
    sentBroadcasts (messageSend false extNone grpsOne userWithGroup payloadEmpty 1 0) =
      [⟨5, 1, false⟩] := by
  exact ⟨rfl, rfl, rfl, rfl⟩

/-- Claim C6 (amended): an HTTP send with neither text nor file fails with
the 400 validation response and performs no side effects (store unchanged,
no broadcast); the realtime handler performs no such validation — with a
strict message model the create throws and the handler aborts without any
acknowledgment, and with a lax model it persists and broadcasts the empty
message. -/
theorem send_empty_validation (ext : String → List String) (groups : List Group)
    (msgs : List Message) (userId : UserId) (text file : Option String)
    (groupId : Option GroupId) (nextId : MessageId) (now : Int)
    (htext : jsTruthyStr text = false) (hfile : file = none) :
    sendMessage ext groups msgs userId text file groupId nextId now =
      ⟨.badRequestTextOrFile, msgs, []⟩ ∧
    (∀ (ext2 : Option String → List String) (user : User) (p : SendPayload)
        (tgid : GroupId),
      p.text = none → p.file = none →
      (match p.groupId with | some g => some g | none => user.groupId) = some tgid →
      messageSend true ext2 groups user p nextId now = .error .createFailed ∧
      sendSucceeds (messageSend false ext2 groups user p nextId now) = true ∧
      sentMessages (messageSend false ext2 groups user p nextId now) ≠ [] ∧
      sentBroadcasts (messageSend false ext2 groups user p nextId now) ≠ []) := by
  constructor
  · simp [sendMessage, htext, hfile]
  · intro ext2 user p tgid hpt hpf hres
    simp only [messageSend, hres, messageCreateAccepts, hpt, hpf, jsTruthyStr,
      Option.isSome_none, Bool.not_true, Bool.false_or, Bool.or_false,
      Bool.or_self, Bool.not_false, Bool.true_or, if_true, if_false,
      Bool.false_eq_true, ite_false, ite_true]
    refine ⟨?_, ?_, ?_, ?_⟩ <;> simp [sendSucceeds, sentMessages, sentBroadcasts]

/-- Witness for C6: for the concrete group catalogue and user, the empty HTTP
send returns the 400 response with no write and no broadcast, and on the
realtime path a strict model aborts the handler while a lax model completes
the send. -/
theorem send_empty_validation_witness :
    sendMessage extStr grpsOne msgsEdit 10 none none (some 1) 50 0 =
      ⟨.badRequestTextOrFile, msgsEdit, []⟩ ∧
    messageSend true extNone grpsOne userWithGroup payloadEmpty 50 0 =
      .error .createFailed ∧
    sendSucceeds (messageSend false extNone grpsOne userWithGroup payloadEmpty 50 0) =
      true := by
  have h := send_empty_validation extStr grpsOne msgsEdit 10 none none (some 1) 50 0 rfl rfl
  have h2 := h.2 extNone userWithGroup payloadEmpty 5 rfl rfl rfl
  exact ⟨h.1, h2.1, h2.2.1⟩

/-! ### Claim C1 — realtime fan-out counting -/

/-- Claim C1 counterexample: with two groups sharing region `r` and a send
whose extracted tags are `[r]`, the tags match one distinct group region, yet
the handler persists three records (one primary plus one copy per matching
group) and emits three `message:new` broadcasts — not the two the claim
predicts for N = 1. -/
theorem messageSend_fanout_cex :
    distinctMatchedRegions grpsTwo (extTagR payloadTagged.text) = 1 ∧
    (sentMessages (messageSend true extTagR grpsTwo userWithGroup payloadTagged 100 0)).length =
      3 ∧
    (sentBroadcasts (messageSend true extTagR grpsTwo userWithGroup payloadTagged 100 0)).length =
      3 := by
  exact ⟨by decide, rfl, rfl⟩

/-- Claim C1 (amended): an authenticated realtime send with empty
`targetGroups` (absent or the empty list), body text present, and a
resolvable target group persists exactly 1 + N records and emits exactly
1 + N `message:new` broadcasts, where N is the number of groups whose region
is among the extracted tags (one forwarded copy per matching group — not per
distinct region): the primary record to the target group room, then one copy
per matching group carrying `forwardedFrom` equal to the primary id,
broadcast to that group's room with the forwarded marker; the sender is acked
with the primary id; when no tags are extracted exactly one record and one
broadcast result. -/
theorem messageSend_fanout (strict : Bool) (ext : Option String → List String)
    (groups : List Group) (user : User) (p : SendPayload) (nextId : MessageId)
    (now : Int) (tgid : GroupId)
    (htg : p.targetGroups = none ∨ p.targetGroups = some [])
    (htext : jsTruthyStr p.text = true)
    (hres : (match p.groupId with | some g => some g | none => user.groupId) = some tgid) :
    sendSucceeds (messageSend strict ext groups user p nextId now) = true ∧
    (sentMessages (messageSend strict ext groups user p nextId now)).length =
      1 + (matchingGroups groups (ext p.text)).length ∧
    ((sentMessages (messageSend strict ext groups user p nextId now)).tail.all
      (fun c => c.forwardedFrom == some nextId)) = true ∧
    ((sentMessages (messageSend strict ext groups user p nextId now)).head?.map
      Message.forwardedFrom) = some none ∧
    sentBroadcasts (messageSend strict ext groups user p nextId now) =
      ⟨tgid, nextId, false⟩ ::
        (matchingGroups groups (ext p.text)).enum.map
          (fun ig => ⟨ig.snd.gid, nextId + 1 + ig.fst, true⟩) ∧
    sentAck (messageSend strict ext groups user p nextId now) = some nextId ∧
    (ext p.text = [] →
      (sentMessages (messageSend strict ext groups user p nextId now)).length = 1 ∧
      sentBroadcasts (messageSend strict ext groups user p nextId now) =
        [⟨tgid, nextId, false⟩]) := by
  have hacc : messageCreateAccepts strict p.text p.file = true := by
    rw [messageCreateAccepts, htext]
    simp
  have hfwd := resolveForwardedGroups_auto groups p.targetGroups (ext p.text) htg
  simp only [messageSend, hres, hacc, hfwd, if_true, ite_true,
    sendSucceeds, sentMessages, sentBroadcasts, sentAck]
  refine ⟨by trivial, ?_, ?_, by trivial, ?_, by trivial, ?_⟩
  · simp [Nat.add_comm]
  · simp only [List.tail_cons, List.all_eq_true, List.mem_map, List.map_map]
    rintro c ⟨ig, -, rfl⟩
    simp
  · rw [List.map_map]
    rfl
  · intro h0
    rw [h0, matchingGroups_nil]
    exact ⟨rfl, rfl⟩

/-- Witness for C1: the tagged send over the two-group catalogue succeeds
with three records and the three broadcasts in order, and the untagged send
produces exactly one record and one broadcast. -/
theorem messageSend_fanout_witness :
    sendSucceeds (messageSend true extTagR grpsTwo userWithGroup payloadTagged 100 0) =
      true ∧
    (sentMessages (messageSend true extTagR grpsTwo userWithGroup payloadTagged 100 0)).length =
      3 ∧
    sentBroadcasts (messageSend true extTagR grpsTwo userWithGroup payloadTagged 100 0) =
      [⟨5, 100, false⟩, ⟨1, 101, true⟩, ⟨2, 102, true⟩] ∧
    sendSucceeds (messageSend true extNone grpsTwo userWithGroup payloadTagged 200 0) =
      true ∧
    (sentMessages (messageSend true extNone grpsTwo userWithGroup payloadTagged 200 0)).length =
      1 ∧
    sentBroadcasts (messageSend true extNone grpsTwo userWithGroup payloadTagged 200 0) =
      [⟨5, 200, false⟩] := by
  have h1 := messageSend_fanout true extTagR grpsTwo userWithGroup payloadTagged 100 0 5
    (Or.inl rfl) rfl rfl
  have h2 := messageSend_fanout true extNone grpsTwo userWithGroup payloadTagged 200 0 5
    (Or.inl rfl) rfl rfl
  exact ⟨h1.1, h1.2.1.trans rfl, h1.2.2.2.2.1.trans rfl, h2.1,
    (h2.2.2.2.2.2.2 rfl).1, (h2.2.2.2.2.2.2 rfl).2⟩

/-! ### Claim C10 — paginated read visibility -/

/-- Claim C10: for a member reading a group's messages, every returned
message belongs to the group, is not tombstoned, and respects the visibility
floor — created at or after `groupJoinedAt` when that is set, and within the
last 7 days otherwise; conversely, with default pagination wide enough for
the store and no cursor, every message of the group satisfying those
conditions is returned. -/
theorem getMessages_visibility (groups : List Group) (users : List User)
    (msgs : List Message) (userId : UserId) (groupId : GroupId)
    (page limit : Nat) (before : Option Int) (now : Int) (g : Group) (u : User)
    (hg : groups.find? (fun x => x.gid == groupId) = some g)
    (hmem : userId ∈ g.users ∨ userId ∈ g.managers)
    (hu : users.find? (fun x => x.uid == userId) = some u) :
    (getMessages groups users msgs userId groupId page limit before now).status = .ok ∧
    (∀ m ∈ (getMessages groups users msgs userId groupId page limit before now).messages,
      m.groupId = groupId ∧ m.deleted.isDeleted = false ∧
      (∀ j, u.groupJoinedAt = some j → j ≤ m.createdAt) ∧
      (u.groupJoinedAt = none → now - m.createdAt ≤ sevenDaysMs)) ∧
    (page = 1 → before = none → msgs.length ≤ limit →
      ∀ m ∈ msgs, m.groupId = groupId → m.deleted.isDeleted = false →
        (∀ j, u.groupJoinedAt = some j → j ≤ m.createdAt) →
        (u.groupJoinedAt = none → now - sevenDaysMs ≤ m.createdAt) →
        m ∈ (getMessages groups users msgs userId groupId page limit before now).messages) := by
  simp only [getMessages, hg, hu, if_pos hmem]
  refine ⟨by trivial, ?_, ?_⟩
  · intro m hmm
    rw [mem_sortByCreatedAsc] at hmm
    have hmem2 : m ∈ msgs.filter (getMessagesQuery groupId u.groupJoinedAt before now) :=
      List.mem_of_mem_drop (List.mem_of_mem_take hmm) |> (mem_sortByCreatedDesc).mp
    rw [List.mem_filter] at hmem2
    have hq := hmem2.2
    unfold getMessagesQuery at hq
    simp only [Bool.and_eq_true, beq_iff_eq, Bool.not_eq_true'] at hq
    refine ⟨hq.1.1.1, hq.1.1.2, ?_, ?_⟩
    · intro j hj
      have := hq.1.2
      rw [hj] at this
      exact of_decide_eq_true this
    · intro hjn
      have := hq.1.2
      rw [hjn] at this
      have h7 := of_decide_eq_true this
      omega
  · intro hpage hbefore hlen m hmm hgrp hdel hjle h7
    have hlt : msgs.length ≤ limit := hlen
    have hq : getMessagesQuery groupId u.groupJoinedAt before now m = true := by
      unfold getMessagesQuery
      rw [hbefore]
      simp only [Bool.and_eq_true, beq_iff_eq, Bool.not_eq_true']
      refine ⟨⟨⟨hgrp, hdel⟩, ?_⟩, by trivial⟩
      cases hj : u.groupJoinedAt with
      | none => exact decide_eq_true (h7 hj)
      | some j => exact decide_eq_true (hjle j hj)
    have hfm : m ∈ msgs.filter (getMessagesQuery groupId u.groupJoinedAt before now) :=
      List.mem_filter.mpr ⟨hmm, hq⟩
    have hsl : (sortByCreatedDesc
        (msgs.filter (getMessagesQuery groupId u.groupJoinedAt before now))).length ≤ limit := by
      rw [length_sortByCreatedDesc]
      exact le_trans (List.length_filter_le _ _) hlt
    rw [hpage]
    simp only [Nat.sub_self, Nat.zero_mul, List.drop_zero]
    rw [List.take_of_length_le hsl, mem_sortByCreatedAsc, mem_sortByCreatedDesc]
    exact hfm

/-- Witness for C10: user 10 (joined group 5 at time 100) reading group 5
with default pagination gets a successful response that contains the message
created at 150 but not the pre-join message, the tombstoned message, or the
other group's message. -/
theorem getMessages_visibility_witness :
    (getMessages [grpG] [userJoined] msgsGet 10 5 1 100 none 1000).status = .ok ∧
    msgNew ∈ (getMessages [grpG] [userJoined] msgsGet 10 5 1 100 none 1000).messages ∧
    msgNew.groupId = 5 ∧ msgNew.deleted.isDeleted = false := by
  have h := getMessages_visibility [grpG] [userJoined] msgsGet 10 5 1 100 none 1000
    grpG userJoined rfl (Or.inl (by decide)) rfl
  have hin := h.2.2 rfl rfl (by decide) msgNew (by decide) rfl rfl
    (fun j hj => by cases hj; decide) (fun hn => by cases hn)
  have hsound := h.2.1 msgNew hin
  exact ⟨h.1, hin, hsound.1, hsound.2.1⟩

end RamaChat
